import Mathlib

/-!
Shallow embedding of `txt2png.go` (repository chrplr/txt2png).

The program is a single linear pipeline:
`loadFont` → `getColors` → `createImage` → `getFreeTypeContext` → `renderText`
→ `saveImage`, driven by `main`.

Modelling conventions:
* Go strings are modelled as lists of Unicode code points (`List Nat`).
  Go's `len(s)` is the UTF-8 byte count (`byteLen`), and Go's
  `for i, r := range s` yields the *byte offset* of each rune
  (`runeIndices`), exactly as in the Go language specification.
* The pixel buffer `*image.RGBA` is a `Canvas`: explicit width/height, a
  total pixel function (only in-bounds coordinates are ever meaningful),
  and a trace `writes` of every pixel store actually performed.
  `Canvas.set` mirrors `(*image.RGBA).Set`, which silently discards
  out-of-bounds stores.
* The freetype library is external.  It is modelled by the two oracles in
  `Font`: `glyphAdvance` (the metric query `face.GlyphAdvance`, a
  deterministic function of dpi, size and code point returning a 26.6
  fixed-point advance or failure) and `rasterize` (the pixel coverage a
  `DrawString` call would paint, or an error).  `drawString` composites
  that coverage through the context's clip rectangle, which
  `getFreeTypeContext` sets to the destination bounds, as the source does.
* `int(float64(advance) / 64)` is modelled exactly: `advance` is a 32-bit
  value, so `float64(advance)` is exact and so is division by the power
  of two 64; the conversion to `int` truncates toward zero.  The exact
  quotient is the rational `Rat.divInt advance 64` and truncation toward
  zero of a rational is `ratTrunc`.
* `log.Fatalf` calls `os.Exit(1)`, which does *not* run deferred
  functions.  `saveImage` therefore reports, in `FsState`, that after a
  failing `png.Encode` or `Flush` the file created by `os.Create` still
  exists (truncated/partial) and the handle was not closed by the
  deferred `Close`.
* `fmt.Printf` banner lines are not modelled; `log` package messages are
  collected as `Msg` values.
-/

/-- Color model for `color.RGBA` / the uniform images `image.Black`,
`image.White`. -/
structure RGBA where
  r : Nat
  g : Nat
  b : Nat
  a : Nat
deriving DecidableEq, Repr

/-- Uniform image `image.Black` (opaque black). -/
def imageBlack : RGBA := ⟨0x00, 0x00, 0x00, 0xff⟩

/-- Uniform image `image.White` (opaque white). -/
def imageWhite : RGBA := ⟨0xff, 0xff, 0xff, 0xff⟩

/-- Embeds `getColors` (txt2png.go lines 78-86): default palette is black
foreground on white background with light-gray ruler; the `whiteonblack`
flag swaps foreground/background and darkens the ruler. -/
def getColors (whiteOnBlack : Bool) : RGBA × RGBA × RGBA :=
  let fg := imageBlack
  let bg := imageWhite
  let ruler : RGBA := ⟨0xdd, 0xdd, 0xdd, 0xff⟩
  if whiteOnBlack then
    (imageWhite, imageBlack, (⟨0x44, 0x44, 0x44, 0xff⟩ : RGBA))
  else
    (fg, bg, ruler)

/-- Number of bytes of the UTF-8 encoding of a code point (Go `utf8.RuneLen`
for valid code points). -/
def utf8Len (cp : Nat) : Nat :=
  if cp < 0x80 then 1
  else if cp < 0x800 then 2
  else if cp < 0x10000 then 3
  else 4

/-- Go `len(s)` for a string holding the given code points: the UTF-8 byte
count. -/
def byteLen (text : List Nat) : Nat := (text.map utf8Len).sum

/-- Helper for `runeIndices`: pairs each code point with its byte offset,
starting at `off`. -/
def runeIndicesFrom : Nat → List Nat → List (Nat × Nat)
  | _, [] => []
  | off, cp :: rest => (off, cp) :: runeIndicesFrom (off + utf8Len cp) rest

/-- Go `for i, r := range s`: the list of (byte offset, code point) pairs, in
input order. -/
def runeIndices (text : List Nat) : List (Nat × Nat) := runeIndicesFrom 0 text

/-- Pixel buffer model for `*image.RGBA` with bounds `(0,0)-(width,height)`.
`writes` records the coordinates of every pixel store that was actually
performed (it is a trace, not program state). -/
structure Canvas where
  width : Nat
  height : Nat
  pix : Nat → Nat → RGBA
  writes : List (Nat × Nat)

/-- Embeds `(*image.RGBA).Set`: a store at `(x, y)` is performed only when
`(x, y)` lies inside the bounds rectangle; out-of-bounds stores are silently
dropped. -/
def Canvas.set (c : Canvas) (x y : Int) (col : RGBA) : Canvas :=
  if 0 ≤ x ∧ x < (c.width : Int) ∧ 0 ≤ y ∧ y < (c.height : Int) then
    { c with
      pix := fun a b => if a = x.toNat ∧ b = y.toNat then col else c.pix a b
      writes := (x.toNat, y.toNat) :: c.writes }
  else c

/-- Embeds `image.NewRGBA(image.Rect(0, 0, w, h))`: a zeroed buffer. -/
def newRGBA (w h : Nat) : Canvas :=
  { width := w, height := h, pix := fun _ _ => ⟨0, 0, 0, 0⟩, writes := [] }

/-- Embeds `draw.Draw(rgba, rgba.Bounds(), bg, image.Point\x7b\x7d, draw.Src)`
for a uniform source: every in-bounds pixel becomes `src`. -/
def drawUniformSrc (c : Canvas) (src : RGBA) : Canvas :=
  { c with pix := fun x y => if x < c.width ∧ y < c.height then src else c.pix x y }

/-- Inner guideline loop of `createImage` (txt2png.go lines 100-102): the
column at `x = i * slotW` is painted in `rulerColor` for `y` from 0 to
`imgH - 1` through bounds-checked stores. -/
def paintColumn (slotW imgH : Nat) (rulerColor : RGBA) (c : Canvas) (i : Nat) : Canvas :=
  (List.range imgH).foldl
    (fun c2 y => c2.set ((i * slotW : Nat) : Int) ((y : Nat) : Int) rulerColor) c

/-- Embeds `createImage` (txt2png.go lines 88-106): width is
`textLen * slotW`, replaced by `slotW` when that product is zero; the buffer
is filled with `bg`; when `showGuidelines` is set, a full-height vertical
line in `rulerColor` is drawn at `x = i * slotW` for each `i < textLen`. -/
def createImage (textLen slotW imgH : Nat) (bg : RGBA) (rulerColor : RGBA)
    (showGuidelines : Bool) : Canvas :=
  let width := if textLen * slotW = 0 then slotW else textLen * slotW
  let rgba := drawUniformSrc (newRGBA width imgH) bg
  if showGuidelines then
    (List.range textLen).foldl (paintColumn slotW imgH rulerColor) rgba
  else rgba

/-- The two hinting modes `font.HintingNone` / `font.HintingFull`. -/
inductive Hinting where
  | hintingNone
  | hintingFull
deriving DecidableEq, Repr

/-- External font/rasterizer capability (the freetype library, out of scope
for this repository).  `glyphAdvance dpi size cp` models
`face.GlyphAdvance(r)` for a face built at that dpi/size: a 26.6 fixed-point
advance, or `none` when the code point has no glyph.  `rasterize` models the
pixel coverage a `DrawString` call for one code point at a pixel position
would paint, or an error; both are deterministic functions. -/
structure Font where
  glyphAdvance : Rat → Rat → Nat → Option Int
  rasterize : Hinting → Rat → Rat → Nat → Int → Int → Except String (List (Int × Int))

/-- Model of `*freetype.Context` after the setter calls in
`getFreeTypeContext`: the configured dpi, font, size, clip rectangle
(always `(0,0)-(clipW,clipH)` here), source color and hinting mode. -/
structure FTContext where
  ctxDPI : Rat
  ctxFont : Font
  ctxFontSize : Rat
  clipW : Nat
  clipH : Nat
  src : RGBA
  hinting : Hinting

/-- Embeds `getFreeTypeContext` (txt2png.go lines 108-124): the clip is set
to `dst.Bounds()`; the hinting switch maps the exact string "full" to
`HintingFull` and everything else (the `default` case) to `HintingNone`. -/
def getFreeTypeContext (f : Font) (dpi size : Rat) (dst : Canvas) (src : RGBA)
    (hintingStr : String) : FTContext :=
  { ctxDPI := dpi
    ctxFont := f
    ctxFontSize := size
    clipW := dst.width
    clipH := dst.height
    src := src
    hinting := if hintingStr = "full" then Hinting.hintingFull else Hinting.hintingNone }

/-- Truncation toward zero of a rational number (`q.den` is positive, and
`Int.tdiv` truncates toward zero).  This is the value of Go's
`int(f)` conversion applied to an exactly-represented float `f = q`. -/
def ratTrunc (q : Rat) : Int := q.num.tdiv q.den

/-- Embeds `glyphWidthPx := int(float64(advance) / 64)` (txt2png.go line
140).  `advance` is a 26.6 fixed-point 32-bit value, so `float64(advance)`
is exact and so is division by 64; the exact quotient is the rational
`Rat.divInt advance 64`, and the `int(...)` conversion truncates toward
zero. -/
def glyphWidthPxOf (advance : Int) : Int := ratTrunc (Rat.divInt advance 64)

/-- Embeds `xPos := i*slotW + (slotW/2 - glyphWidthPx/2)` (txt2png.go line
145).  `i` and `slotW` are non-negative so their Go divisions and products
agree with ℕ arithmetic; `glyphWidthPx/2` is Go `int` division, which
truncates toward zero (`Int.tdiv`). -/
def xPosOf (i slotW : Nat) (glyphWidthPx : Int) : Int :=
  (i : Int) * (slotW : Int) + (((slotW / 2 : Nat) : Int) - glyphWidthPx.tdiv 2)

/-- One coverage pixel composited by the freetype painter: painted only when
it lies inside the clip rectangle, and stored through the bounds-checked
destination store. -/
def clipApply (clipW clipH : Nat) (src : RGBA) (acc : Canvas) (p : Int × Int) : Canvas :=
  if 0 ≤ p.1 ∧ p.1 < (clipW : Int) ∧ 0 ≤ p.2 ∧ p.2 < (clipH : Int) then
    acc.set p.1 p.2 src
  else acc

/-- Embeds `c.DrawString(string(r), pt)`: the rasterizer either reports an
error (painting nothing, per the library contract assumed here) or paints
its coverage, clipped to the context's clip rectangle, into the destination
buffer through bounds-checked pixel stores. -/
def drawString (ctx : FTContext) (cp : Nat) (x y : Int) (c : Canvas) :
    Canvas × Option String :=
  match ctx.ctxFont.rasterize ctx.hinting ctx.ctxDPI ctx.ctxFontSize cp x y with
  | .error e => (c, some e)
  | .ok pts => (pts.foldl (clipApply ctx.clipW ctx.clipH ctx.src) c, none)

/-- Messages emitted through the `log` package (and the per-character
verbose line). -/
inductive Msg where
  | warnAdvance (cp : Nat)
  | errDraw (cp : Nat) (e : String)
  | infoCharWidth (cp : Nat) (w : Int)
  | fatalFontRead (e : String)
  | fatalFontParse (e : String)
  | fatalCreateOut (e : String)
  | fatalEncode (e : String)
  | fatalFlush (e : String)
deriving DecidableEq, Repr

/-- Whether a message was produced by a `log.Fatalf` call. -/
def Msg.isFatal : Msg → Bool
  | .fatalFontRead _ => true
  | .fatalFontParse _ => true
  | .fatalCreateOut _ => true
  | .fatalEncode _ => true
  | .fatalFlush _ => true
  | _ => false

/-- State threaded through the `renderText` loop: the destination buffer,
the log messages emitted so far, and the trace of `DrawString` calls as
(code point, x, y) triples. -/
structure RenderState where
  canvas : Canvas
  logs : List Msg
  draws : List (Nat × Int × Int)

/-- One iteration of the loop `for i, r := range text` in `renderText`
(txt2png.go lines 133-151): a failed advance lookup logs a warning and
continues; otherwise the glyph width, slot-centered x position and the
baseline `imgH*2/3` are computed and `DrawString` is invoked, logging (but
not aborting on) a drawing error. -/
def renderStep (ctx : FTContext) (f : Font) (slotW imgH : Nat) (dpi size : Rat)
    (verb : Bool) (st : RenderState) (ir : Nat × Nat) : RenderState :=
  match f.glyphAdvance dpi size ir.2 with
  | none => { st with logs := st.logs ++ [Msg.warnAdvance ir.2] }
  | some advance =>
    let glyphWidthPx := glyphWidthPxOf advance
    let logs1 := if verb then st.logs ++ [Msg.infoCharWidth ir.2 glyphWidthPx] else st.logs
    let xPos := xPosOf ir.1 slotW glyphWidthPx
    let y : Int := ((imgH * 2 / 3 : Nat) : Int)
    let res := drawString ctx ir.2 xPos y st.canvas
    { canvas := res.1
      logs := logs1 ++ (match res.2 with | some e => [Msg.errDraw ir.2 e] | none => [])
      draws := st.draws ++ [(ir.2, xPos, y)] }

/-- Embeds `renderText` (txt2png.go lines 126-152): builds a face at the
given dpi/size and processes every rune of `text` in order with
`renderStep`. -/
def renderText (ctx : FTContext) (f : Font) (text : List Nat) (slotW imgH : Nat)
    (dpi size : Rat) (verb : Bool) (canvas : Canvas) : RenderState :=
  (runeIndices text).foldl (renderStep ctx f slotW imgH dpi size verb)
    { canvas := canvas, logs := [], draws := [] }

/-- External world of one invocation: the results of `os.ReadFile` on the
font path, `truetype.Parse`, `os.Create` on the output path, `png.Encode`
(the bytes it writes into the buffered writer, or an error) and the final
`Flush` to disk. -/
structure Env where
  readFontFile : Except String (List Nat)
  parseFont : List Nat → Except String Font
  createOutFile : Except String Unit
  encodePNG : Canvas → Except String (List Nat)
  flushOut : Except String Unit

/-- Embeds `loadFont` (txt2png.go lines 63-76): a read failure or a parse
failure is reported through `log.Fatalf`. -/
def loadFont (env : Env) : Except Msg Font :=
  match env.readFontFile with
  | .error e => .error (Msg.fatalFontRead e)
  | .ok bytes =>
    match env.parseFont bytes with
    | .error e => .error (Msg.fatalFontParse e)
    | .ok f => .ok f

/-- Observable file-system state for the output path at process exit:
whether the file exists, the bytes committed to it, and whether the
process's handle on it was still open when the process terminated. -/
structure FsState where
  outFileExists : Bool
  outFileBytes : List Nat
  outHandleOpen : Bool
deriving DecidableEq, Repr

/-- Result of `saveImage`: the process exit code contribution, the fatal
message (if any), and the resulting file-system state. -/
structure SaveResult where
  exitCode : Nat
  fatal : Option Msg
  fs : FsState
deriving DecidableEq, Repr

/-- Embeds `saveImage` (txt2png.go lines 154-169).  `os.Create` creates (or
truncates) the file and opens a handle.  On `png.Encode` or `Flush` failure
`log.Fatalf` calls `os.Exit(1)`, which skips the deferred `out.Close()`:
the truncated file remains and the handle is still open at termination.  On
success the buffered bytes are flushed and the deferred close runs on
return. -/
def saveImage (env : Env) (rgba : Canvas) : SaveResult :=
  match env.createOutFile with
  | .error e =>
    { exitCode := 1, fatal := some (Msg.fatalCreateOut e)
      fs := { outFileExists := false, outFileBytes := [], outHandleOpen := false } }
  | .ok _ =>
    match env.encodePNG rgba with
    | .error e =>
      { exitCode := 1, fatal := some (Msg.fatalEncode e)
        fs := { outFileExists := true, outFileBytes := [], outHandleOpen := true } }
    | .ok bytes =>
      match env.flushOut with
      | .error e =>
        { exitCode := 1, fatal := some (Msg.fatalFlush e)
          fs := { outFileExists := true, outFileBytes := [], outHandleOpen := true } }
      | .ok _ =>
        { exitCode := 0, fatal := none
          fs := { outFileExists := true, outFileBytes := bytes, outHandleOpen := false } }

/-- The command-line flags of txt2png (lines 29-41), with the `-text` flag
as its list of code points. -/
structure Flags where
  dpi : Rat
  fontfile : String
  hinting : String
  fontSize : Rat
  wonb : Bool
  text : List Nat
  outFile : String
  slotWidth : Nat
  imageHeight : Nat
  showGuidelines : Bool
  verbose : Bool

/-- The canvas exactly as `main` builds it (line 50):
`createImage(len(*text), *slotWidth, *imageHeight, bg, rulerColor,
*showGuidelines)` — note `len(*text)` is the byte count. -/
def mainCanvas (fl : Flags) : Canvas :=
  let cols := getColors fl.wonb
  createImage (byteLen fl.text) fl.slotWidth fl.imageHeight cols.2.1 cols.2.2
    fl.showGuidelines

/-- The render phase exactly as `main` runs it (lines 52-54): the context is
built over `mainCanvas` with the foreground color, then `renderText` is
invoked on the same buffer. -/
def mainRender (fl : Flags) (f : Font) : RenderState :=
  let cols := getColors fl.wonb
  let rgba := mainCanvas fl
  let c := getFreeTypeContext f fl.dpi fl.fontSize rgba cols.1 fl.hinting
  renderText c f fl.text fl.slotWidth fl.imageHeight fl.dpi fl.fontSize fl.verbose rgba

/-- Observable outcome of one whole invocation of `main`. -/
structure Outcome where
  exitCode : Nat
  logs : List Msg
  fs : FsState
  draws : List (Nat × Int × Int)
  finalImage : Option Canvas

/-- Combines the render state with the result of `saveImage` into the
process outcome: a fatal save aborts with its exit code and message, a
successful save completes the run with exit status 0. -/
def finishSave (st : RenderState) (sv : SaveResult) : Outcome :=
  match sv.fatal with
  | some m =>
    { exitCode := sv.exitCode, logs := st.logs ++ [m], fs := sv.fs
      draws := st.draws, finalImage := none }
  | none =>
    { exitCode := 0, logs := st.logs, fs := sv.fs
      draws := st.draws, finalImage := some st.canvas }

/-- Embeds `main` (txt2png.go lines 43-61): load the font (fatal on
failure), pick the palette, build the canvas, build the context, render the
text, save the image (fatal on failure). -/
def runMain (fl : Flags) (env : Env) : Outcome :=
  match loadFont env with
  | .error m =>
    { exitCode := 1, logs := [m]
      fs := { outFileExists := false, outFileBytes := [], outHandleOpen := false }
      draws := [], finalImage := none }
  | .ok f =>
    finishSave (mainRender fl f) (saveImage env (mainRender fl f).canvas)

/-! ### General helper lemmas -/

/-- A fold preserves any projection that each step preserves. -/
theorem foldl_preserve {σ α β : Type} (g : σ → β) (f : σ → α → σ)
    (h : ∀ s a, g (f s a) = g s) :
    ∀ (l : List α) (s : σ), g (l.foldl f s) = g s := by
  intro l
  induction l with
  | nil => intro s; rfl
  | cons a l ih => intro s; rw [List.foldl_cons, ih, h]

/-- A store never changes the buffer width. -/
theorem set_width (c : Canvas) (x y : Int) (col : RGBA) :
    (c.set x y col).width = c.width := by
  unfold Canvas.set; split <;> rfl

/-- A store never changes the buffer height. -/
theorem set_height (c : Canvas) (x y : Int) (col : RGBA) :
    (c.set x y col).height = c.height := by
  unfold Canvas.set; split <;> rfl

/-- Painting a guideline column never changes the buffer width. -/
theorem paintColumn_width (slotW imgH : Nat) (ruler : RGBA) (c : Canvas) (i : Nat) :
    (paintColumn slotW imgH ruler c i).width = c.width :=
  foldl_preserve Canvas.width _ (fun c2 y => set_width c2 _ _ ruler) _ c

/-- Painting a guideline column never changes the buffer height. -/
theorem paintColumn_height (slotW imgH : Nat) (ruler : RGBA) (c : Canvas) (i : Nat) :
    (paintColumn slotW imgH ruler c i).height = c.height :=
  foldl_preserve Canvas.height _ (fun c2 y => set_height c2 _ _ ruler) _ c

/-- Dimensions of the buffer built by `createImage`: the width is
`textLen * slotW` unless that product is zero, in which case it is `slotW`;
the height is the configured height. -/
theorem createImage_dims (textLen slotW imgH : Nat) (bg ruler : RGBA) (sg : Bool) :
    (createImage textLen slotW imgH bg ruler sg).width
      = (if textLen * slotW = 0 then slotW else textLen * slotW) ∧
    (createImage textLen slotW imgH bg ruler sg).height = imgH := by
  unfold createImage
  cases sg with
  | false => exact ⟨rfl, rfl⟩
  | true =>
    constructor
    · simp only [if_true]
      rw [foldl_preserve Canvas.width _ (fun c i => paintColumn_width slotW imgH ruler c i)]
      rfl
    · simp only [if_true]
      rw [foldl_preserve Canvas.height _ (fun c i => paintColumn_height slotW imgH ruler c i)]
      rfl

/-! ### C6 -/

/-- C6: `getColors` produces exactly two palettes: `whiteonblack = false`
gives black foreground on white background with light-gray guideline color
0xdddddd, `whiteonblack = true` gives white foreground on black background
with dark-gray guideline color 0x444444, and for every input the result is
one of these two triples. -/
theorem getColors_two_palettes :
    getColors false = (imageBlack, imageWhite, (⟨0xdd, 0xdd, 0xdd, 0xff⟩ : RGBA)) ∧
    getColors true = (imageWhite, imageBlack, (⟨0x44, 0x44, 0x44, 0xff⟩ : RGBA)) ∧
    ∀ b : Bool, getColors b = getColors false ∨ getColors b = getColors true := by
  refine ⟨rfl, rfl, ?_⟩
  intro b
  cases b
  · exact Or.inl rfl
  · exact Or.inr rfl

/-! ### C9 -/

/-- C9: every hinting flag value other than the exact string "full" —
including strings outside the documented enum such as "FULL" or "garbage" —
makes `getFreeTypeContext` silently configure `HintingNone`; the switch has
no error branch, so an unrecognized value is never rejected. -/
theorem hinting_default_none (f : Font) (dpi size : Rat) (dst : Canvas)
    (src : RGBA) (s : String) (h : s ≠ "full") :
    (getFreeTypeContext f dpi size dst src s).hinting = Hinting.hintingNone := by
  unfold getFreeTypeContext
  simp [h]

/-- Trivial external font: no glyph has an advance and every rasterization
paints nothing. -/
def fontTriv : Font :=
  { glyphAdvance := fun _ _ _ => none
    rasterize := fun _ _ _ _ _ _ => .ok [] }

/-- C9 witness: the out-of-enum value "FULL" yields hinting mode none. -/
theorem hinting_default_none_at_FULL :
    (getFreeTypeContext fontTriv 72 125 (newRGBA 1 1) imageBlack "FULL").hinting
      = Hinting.hintingNone :=
  hinting_default_none fontTriv 72 125 (newRGBA 1 1) imageBlack "FULL" (by decide)

/-! ### C7 -/

/-- Truncating division is determined by cross-multiplication, non-negative
numerator case: euclidean division is scaling-invariant and agrees with
truncating division on non-negative numerators. -/
theorem tdiv_eq_of_mul_eq_nonneg {n a d b : ℤ} (hn : 0 ≤ n) (hd : 0 < d)
    (hb : 0 < b) (h : n * b = a * d) : n.tdiv d = a.tdiv b := by
  have ha : 0 ≤ a := by nlinarith
  rw [Int.tdiv_eq_ediv hn hd.le, Int.tdiv_eq_ediv ha hb.le]
  have h1 : b * n / (b * d) = n / d := Int.mul_ediv_mul_of_pos n d hb
  have h2 : d * a / (d * b) = a / b := Int.mul_ediv_mul_of_pos a b hd
  rw [← h1, ← h2]
  have hbn : b * n = d * a := by linarith [h]
  rw [hbn, mul_comm b d]

/-- Truncating division is determined by cross-multiplication: if
`n * b = a * d` with positive denominators `d`, `b`, then `n.tdiv d = a.tdiv b`. -/
theorem tdiv_eq_of_mul_eq {n a d b : ℤ} (hd : 0 < d) (hb : 0 < b)
    (h : n * b = a * d) : n.tdiv d = a.tdiv b := by
  rcases le_or_lt 0 n with hn | hn
  · exact tdiv_eq_of_mul_eq_nonneg hn hd hb h
  · have h' : (-n) * b = (-a) * d := by linarith
    have := tdiv_eq_of_mul_eq_nonneg (by linarith) hd hb h'
    rw [Int.neg_tdiv, Int.neg_tdiv] at this
    exact neg_inj.mp this

/-- Truncation toward zero of the exact rational `a / b` is the truncating
integer division `a.tdiv b`, for positive `b`. -/
theorem ratTrunc_divInt_eq_tdiv (a b : ℤ) (hb : 0 < b) :
    ratTrunc (Rat.divInt a b) = a.tdiv b := by
  set q := Rat.divInt a b with hqdef
  have hden : (0 : ℤ) < (q.den : ℤ) := by exact_mod_cast q.den_pos
  have hden0 : ((q.den : ℚ)) ≠ 0 := by exact_mod_cast q.den_pos.ne'
  have hb0 : ((b : ℚ)) ≠ 0 := by exact_mod_cast hb.ne'
  have h1 : ((q.num : ℚ)) / (q.den : ℚ) = (a : ℚ) / (b : ℚ) := by
    rw [Rat.num_div_den, hqdef, Rat.divInt_eq_div]
  rw [div_eq_div_iff hden0 hb0] at h1
  have hcross : q.num * b = a * (q.den : ℤ) := by exact_mod_cast h1
  exact tdiv_eq_of_mul_eq hden hb hcross

/-- C7: for every advance in the 32-bit range of `fixed.Int26_6`, the
computed `glyphWidthPx = int(float64(advance) / 64)` equals the advance
divided by 64 with truncation toward zero (the float arithmetic is exact on
this range, and the `int` conversion truncates toward zero). -/
theorem glyphWidthPx_eq_advance_tdiv_64 (advance : Int)
    (h1 : -(2 ^ 31) ≤ advance) (h2 : advance < 2 ^ 31) :
    glyphWidthPxOf advance = advance.tdiv 64 := by
  unfold glyphWidthPxOf
  exact ratTrunc_divInt_eq_tdiv advance 64 (by norm_num)

/-- C7 witness: an advance of 130 sub-pixel units is converted to 2 whole
pixels, the truncation of 130 / 64. -/
theorem glyphWidthPx_at_130 : glyphWidthPxOf 130 = 2 :=
  (glyphWidthPx_eq_advance_tdiv_64 130 (by decide) (by decide)).trans (by decide)

/-! ### C8 -/

/-- C8: the pipeline from inputs (flags, font-file contents and the
behavior of the external capabilities) to the produced output bytes is a
pure function, so two runs on identical inputs produce byte-identical
output and, in fact, identical observable outcomes. -/
theorem runMain_deterministic (fl1 fl2 : Flags) (env1 env2 : Env)
    (hfl : fl1 = fl2) (henv : env1 = env2) :
    (runMain fl1 env1).fs.outFileBytes = (runMain fl2 env2).fs.outFileBytes ∧
    runMain fl1 env1 = runMain fl2 env2 := by
  subst hfl
  subst henv
  exact ⟨rfl, rfl⟩

/-- Minimal flag assignment: empty text, 1×1 canvas, defaults otherwise. -/
def flagsMini : Flags :=
  { dpi := 72, fontfile := "./LiberationMono-Regular.ttf", hinting := "none"
    fontSize := 125, wonb := false, text := [], outFile := "out.png"
    slotWidth := 1, imageHeight := 1, showGuidelines := false, verbose := false }

/-- Environment in which every external operation succeeds. -/
def envOk : Env :=
  { readFontFile := .ok []
    parseFont := fun _ => .ok fontTriv
    createOutFile := .ok ()
    encodePNG := fun _ => .ok [137, 80, 78, 71]
    flushOut := .ok () }

/-- C8 witness: two runs on the minimal inputs agree on the output bytes. -/
theorem runMain_deterministic_at_mini :
    (runMain flagsMini envOk).fs.outFileBytes
      = (runMain flagsMini envOk).fs.outFileBytes :=
  (runMain_deterministic flagsMini flagsMini envOk envOk rfl rfl).1

/-! ### C1 -/

/-- C1 (amended): the canvas built by `main` has width
`byteLen(text) * slotWidth` when the UTF-8 byte count of the text is
positive, `slotWidth` when it is zero (with the degenerate `slotWidth = 0`
collapsing both to 0), and height equal to the configured image height.
The byte count equals the code-point count only for ASCII text. -/
theorem mainCanvas_dims (fl : Flags) :
    (mainCanvas fl).width
      = (if byteLen fl.text = 0 then fl.slotWidth
         else byteLen fl.text * fl.slotWidth) ∧
    (mainCanvas fl).height = fl.imageHeight := by
  unfold mainCanvas
  refine ⟨?_, (createImage_dims _ _ _ _ _ _).2⟩
  rw [(createImage_dims _ _ _ _ _ _).1]
  rcases Nat.eq_zero_or_pos (byteLen fl.text) with h0 | hpos
  · simp [h0]
  · rcases Nat.eq_zero_or_pos fl.slotWidth with hs | hsp
    · simp [hs, Nat.pos_iff_ne_zero.mp hpos]
    · have hne : byteLen fl.text * fl.slotWidth ≠ 0 :=
        Nat.mul_ne_zero (Nat.pos_iff_ne_zero.mp hpos) (Nat.pos_iff_ne_zero.mp hsp)
      simp [hne, Nat.pos_iff_ne_zero.mp hpos]

/-- Flags rendering the one-code-point text "é" (U+00E9, two UTF-8 bytes)
into 100-pixel slots. -/
def flagsC1 : Flags :=
  { flagsMini with text := [0xE9], slotWidth := 100, imageHeight := 50 }

/-- C1 counterexample: for the text "é" the code-point count is 1 and it is
positive, yet the canvas built by `main` is 200 pixels wide, not
`1 * 100`: `main` passes Go's `len(*text)`, the UTF-8 byte count, to
`createImage`. -/
theorem mainCanvas_width_ne_codepoints_mul_slot :
    flagsC1.text.length = 1 ∧ 0 < flagsC1.text.length ∧
    (mainCanvas flagsC1).width = 200 ∧
    (mainCanvas flagsC1).width ≠ flagsC1.text.length * flagsC1.slotWidth := by
  refine ⟨rfl, by decide, by decide, by decide⟩

/-! ### C2 -/

/-- Trace of `DrawString` calls performed by the render loop: one call per
rune whose advance lookup succeeds, recording the code point, the computed
x position and the baseline y. -/
theorem renderFold_draws (ctx : FTContext) (f : Font) (slotW imgH : Nat)
    (dpi size : Rat) (verb : Bool) :
    ∀ (l : List (Nat × Nat)) (st : RenderState),
      (l.foldl (renderStep ctx f slotW imgH dpi size verb) st).draws
        = st.draws ++ l.filterMap (fun ir =>
            (f.glyphAdvance dpi size ir.2).map
              (fun adv => (ir.2, xPosOf ir.1 slotW (glyphWidthPxOf adv),
                ((imgH * 2 / 3 : Nat) : Int)))) := by
  intro l
  induction l with
  | nil => intro st; simp
  | cons ir l ih =>
    intro st
    rw [List.foldl_cons, ih]
    cases hadv : f.glyphAdvance dpi size ir.2 with
    | none => simp [renderStep, hadv]
    | some adv => simp [renderStep, hadv]

/-- C2 (amended): `renderText` issues exactly one `DrawString` call per code
point whose advance lookup succeeds, at `x = i*slotW + (slotW/2 - w/2)` and
`y = imgH*2/3` in integer arithmetic, where `i` is the UTF-8 *byte offset*
of the code point in the text (it equals the code-point index only while
all preceding characters are ASCII) and `w` the advance in whole pixels;
`x` is a function of `i`, `slotW` and `w` alone, hence independent of DPI
and size except through `w`. -/
theorem renderText_draw_positions (ctx : FTContext) (f : Font) (text : List Nat)
    (slotW imgH : Nat) (dpi size : Rat) (verb : Bool) (cv : Canvas) :
    (renderText ctx f text slotW imgH dpi size verb cv).draws
      = (runeIndices text).filterMap (fun ir =>
          (f.glyphAdvance dpi size ir.2).map
            (fun adv => (ir.2, xPosOf ir.1 slotW (glyphWidthPxOf adv),
              ((imgH * 2 / 3 : Nat) : Int)))) ∧
    (∀ (i sw : Nat) (w w' : Int), w = w' → xPosOf i sw w = xPosOf i sw w') := by
  constructor
  · unfold renderText
    rw [renderFold_draws]
    rfl
  · intro i sw w w' h
    rw [h]

/-- External font whose every glyph has advance 64 (one pixel) and paints
nothing. -/
def fontAdv64 : Font :=
  { glyphAdvance := fun _ _ _ => some 64
    rasterize := fun _ _ _ _ _ _ => .ok [] }

/-- Canvas for the C2 witness: one character "A" in 10-pixel slots. -/
def cvA : Canvas := createImage (byteLen [65]) 10 30 imageWhite ⟨0xdd, 0xdd, 0xdd, 0xff⟩ false

/-- Context for the C2 witness. -/
def ctxA : FTContext := getFreeTypeContext fontAdv64 72 125 cvA imageBlack "none"

/-- C2 witness: for "A" (byte offset 0) with advance 64 (1 px) in a 10-px
slot of a 30-px-high image, the single draw happens at x = 0*10 + (5 - 0)
= 5 and y = 30*2/3 = 20. -/
theorem renderText_draw_positions_at_A :
    (renderText ctxA fontAdv64 [65] 10 30 72 125 false cvA).draws
      = [(65, 5, 20)] ∧ xPosOf 0 10 1 = xPosOf 0 10 1 := by
  refine ⟨(renderText_draw_positions ctxA fontAdv64 [65] 10 30 72 125 false cvA).1.trans
    (by decide), (renderText_draw_positions ctxA fontAdv64 [65] 10 30 72 125 false cvA).2
      0 10 1 1 rfl⟩

/-- External font whose every glyph has advance 0 and paints nothing. -/
def fontAdv0 : Font :=
  { glyphAdvance := fun _ _ _ => some 0
    rasterize := fun _ _ _ _ _ _ => .ok [] }

/-- Canvas for the C2 counterexample: the text "éA". -/
def cvEA : Canvas :=
  createImage (byteLen [0xE9, 65]) 10 30 imageWhite ⟨0xdd, 0xdd, 0xdd, 0xff⟩ false

/-- Context for the C2 counterexample. -/
def ctxEA : FTContext := getFreeTypeContext fontAdv0 72 125 cvEA imageBlack "none"

/-- C2 counterexample: in the text "éA" the code point 'A' has code-point
index 1 but UTF-8 byte offset 2; with zero-width glyphs and slot width 10
the loop draws it at x = 2*10 + 5 = 25, not at 1*10 + (10/2 - 0/2) = 15 as
the claim's code-point indexing predicts. -/
theorem renderText_x_not_codepoint_index :
    (renderText ctxEA fontAdv0 [0xE9, 65] 10 30 72 125 false cvEA).draws.map
        (fun d => d.2.1) = [5, 25] ∧
    (25 : Int) ≠ 1 * 10 + (10 / 2 - 0 / 2) := by
  constructor
  · decide
  · decide

/-! ### C3 -/

/-- C3 (amended): every fatal error — font file unreadable, font
unparsable, output path uncreatable, PNG encode failure, buffered flush
failure — terminates the process immediately with exit status 1 and a
fatal diagnostic message, and no complete output is ever committed; but
when the failure occurs in `png.Encode` or `Flush`, `os.Create` has
already created (truncated) the output file, which is left behind, and
`log.Fatalf`'s `os.Exit` skips the deferred `Close`, so the handle is
still open at termination.  The original claim's "no partial output file
is left, and open resources are closed on the error path" does not hold
on those two paths. -/
theorem runMain_eq_of_read_error (fl : Flags) (env : Env) (e : String)
    (h : env.readFontFile = .error e) :
    runMain fl env = ⟨1, [Msg.fatalFontRead e], ⟨false, [], false⟩, [], none⟩ := by
  unfold runMain loadFont
  rw [h]

theorem runMain_eq_of_parse_error (fl : Flags) (env : Env) (bytes : List Nat)
    (e : String) (h1 : env.readFontFile = .ok bytes)
    (h2 : env.parseFont bytes = .error e) :
    runMain fl env = ⟨1, [Msg.fatalFontParse e], ⟨false, [], false⟩, [], none⟩ := by
  unfold runMain loadFont
  rw [h1]
  simp only [h2]

theorem runMain_eq_of_font_ok (fl : Flags) (env : Env) (bytes : List Nat)
    (f : Font) (h1 : env.readFontFile = .ok bytes)
    (h2 : env.parseFont bytes = .ok f) :
    runMain fl env
      = finishSave (mainRender fl f) (saveImage env (mainRender fl f).canvas) := by
  unfold runMain loadFont
  rw [h1]
  simp only [h2]

theorem saveImage_eq_of_create_error (env : Env) (rgba : Canvas) (e : String)
    (h : env.createOutFile = .error e) :
    saveImage env rgba
      = ⟨1, some (Msg.fatalCreateOut e), ⟨false, [], false⟩⟩ := by
  unfold saveImage
  rw [h]

theorem saveImage_eq_of_encode_error (env : Env) (rgba : Canvas) (e : String)
    (h1 : env.createOutFile = .ok ()) (h2 : env.encodePNG rgba = .error e) :
    saveImage env rgba
      = ⟨1, some (Msg.fatalEncode e), ⟨true, [], true⟩⟩ := by
  unfold saveImage
  rw [h1, h2]

theorem saveImage_eq_of_flush_error (env : Env) (rgba : Canvas)
    (bytes : List Nat) (e : String) (h1 : env.createOutFile = .ok ())
    (h2 : env.encodePNG rgba = .ok bytes) (h3 : env.flushOut = .error e) :
    saveImage env rgba
      = ⟨1, some (Msg.fatalFlush e), ⟨true, [], true⟩⟩ := by
  unfold saveImage
  rw [h1, h2, h3]

theorem saveImage_eq_of_ok (env : Env) (rgba : Canvas) (bytes : List Nat)
    (h1 : env.createOutFile = .ok ()) (h2 : env.encodePNG rgba = .ok bytes)
    (h3 : env.flushOut = .ok ()) :
    saveImage env rgba = ⟨0, none, ⟨true, bytes, false⟩⟩ := by
  unfold saveImage
  rw [h1, h2, h3]

theorem finishSave_some (st : RenderState) (ec : Nat) (m : Msg) (fs : FsState) :
    finishSave st ⟨ec, some m, fs⟩
      = ⟨ec, st.logs ++ [m], fs, st.draws, none⟩ := rfl

theorem finishSave_none (st : RenderState) (ec : Nat) (fs : FsState) :
    finishSave st ⟨ec, none, fs⟩
      = ⟨0, st.logs, fs, st.draws, some st.canvas⟩ := rfl

theorem runMain_fatal_behavior (fl : Flags) (env : Env) :
    ((runMain fl env).exitCode = 0 ∨
      ((runMain fl env).exitCode = 1 ∧
        ∃ m, m ∈ (runMain fl env).logs ∧ m.isFatal = true)) ∧
    ((runMain fl env).exitCode ≠ 0 →
      (runMain fl env).fs.outFileBytes = [] ∧ (runMain fl env).finalImage = none) ∧
    ((runMain fl env).exitCode ≠ 0 → (runMain fl env).fs.outFileExists = true →
      (runMain fl env).fs.outHandleOpen = true) := by
  rcases hrf : env.readFontFile with e | bytes
  · rw [runMain_eq_of_read_error fl env e hrf]
    exact ⟨Or.inr ⟨rfl, Msg.fatalFontRead e, by simp, rfl⟩, fun _ => ⟨rfl, rfl⟩,
      fun _ h => absurd h Bool.false_ne_true⟩
  · rcases hpf : env.parseFont bytes with e | f
    · rw [runMain_eq_of_parse_error fl env bytes e hrf hpf]
      exact ⟨Or.inr ⟨rfl, Msg.fatalFontParse e, by simp, rfl⟩, fun _ => ⟨rfl, rfl⟩,
        fun _ h => absurd h Bool.false_ne_true⟩
    · rw [runMain_eq_of_font_ok fl env bytes f hrf hpf]
      rcases hco : env.createOutFile with e | u
      · rw [saveImage_eq_of_create_error env _ e hco, finishSave_some]
        exact ⟨Or.inr ⟨rfl, Msg.fatalCreateOut e, by simp, rfl⟩,
          fun _ => ⟨rfl, rfl⟩, fun _ h => absurd h Bool.false_ne_true⟩
      · rcases hen : env.encodePNG (mainRender fl f).canvas with e | outBytes
        · rw [saveImage_eq_of_encode_error env _ e (by cases u; exact hco) hen,
            finishSave_some]
          exact ⟨Or.inr ⟨rfl, Msg.fatalEncode e, by simp, rfl⟩,
            fun _ => ⟨rfl, rfl⟩, fun _ _ => rfl⟩
        · rcases hfl2 : env.flushOut with e | u2
          · rw [saveImage_eq_of_flush_error env _ outBytes e (by cases u; exact hco)
              hen hfl2, finishSave_some]
            exact ⟨Or.inr ⟨rfl, Msg.fatalFlush e, by simp, rfl⟩,
              fun _ => ⟨rfl, rfl⟩, fun _ _ => rfl⟩
          · rw [saveImage_eq_of_ok env _ outBytes (by cases u; exact hco) hen
              (by cases u2; exact hfl2), finishSave_none]
            exact ⟨Or.inl rfl, fun h => absurd rfl h, fun h _ => absurd rfl h⟩

/-- Environment in which `png.Encode` fails after everything before it
succeeded. -/
def envEncodeFail : Env :=
  { readFontFile := .ok []
    parseFont := fun _ => .ok fontTriv
    createOutFile := .ok ()
    encodePNG := fun _ => .error "invalid image"
    flushOut := .ok () }

/-- C3 counterexample: with a failing `png.Encode` the process exits with
status 1, but the output file created (and truncated) by `os.Create` is
left on disk — a partial output — and the program never closes the handle,
because `log.Fatalf`'s `os.Exit(1)` skips the deferred `Close`. -/
theorem runMain_encode_failure_leaves_file :
    (runMain flagsMini envEncodeFail).exitCode = 1 ∧
    (runMain flagsMini envEncodeFail).fs.outFileExists = true ∧
    (runMain flagsMini envEncodeFail).fs.outHandleOpen = true := by
  refine ⟨?_, ?_, ?_⟩ <;> decide

/-- C3 witness: the amended theorem applied to the encode-failure run shows
no bytes were committed and the handle was left open. -/
theorem runMain_fatal_behavior_at_encode_failure :
    (runMain flagsMini envEncodeFail).fs.outFileBytes = [] ∧
    (runMain flagsMini envEncodeFail).fs.outHandleOpen = true :=
  ⟨((runMain_fatal_behavior flagsMini envEncodeFail).2.1 (by decide)).1,
    (runMain_fatal_behavior flagsMini envEncodeFail).2.2 (by decide) (by decide)⟩

/-! ### C4 -/

/-- C4: per-character failures are recoverable.  (1) A failed advance
lookup only appends a warning naming the code point: the canvas (hence the
character's slot) and the draw trace are untouched and the loop continues
with the very same state.  (2) A failed rasterization leaves the canvas
untouched and logs a message naming the code point, without aborting.
(3) Whenever the external save operations succeed, the whole run — whatever
per-character failures occurred — exits with status 0 and commits an
output image. -/
theorem renderText_recoverable_failures :
    (∀ (ctx : FTContext) (f : Font) (slotW imgH : Nat) (dpi size : Rat)
       (verb : Bool) (st : RenderState) (i cp : Nat),
       f.glyphAdvance dpi size cp = none →
       renderStep ctx f slotW imgH dpi size verb st (i, cp)
         = { st with logs := st.logs ++ [Msg.warnAdvance cp] }) ∧
    (∀ (ctx : FTContext) (f : Font) (slotW imgH : Nat) (dpi size : Rat)
       (verb : Bool) (st : RenderState) (i cp : Nat) (adv : Int) (e : String),
       f.glyphAdvance dpi size cp = some adv →
       ctx.ctxFont.rasterize ctx.hinting ctx.ctxDPI ctx.ctxFontSize cp
           (xPosOf i slotW (glyphWidthPxOf adv))
           ((imgH * 2 / 3 : Nat) : Int) = .error e →
       (renderStep ctx f slotW imgH dpi size verb st (i, cp)).canvas = st.canvas ∧
       Msg.errDraw cp e ∈ (renderStep ctx f slotW imgH dpi size verb st (i, cp)).logs) ∧
    (∀ (fl : Flags) (env : Env) (f : Font) (outBytes : List Nat),
       loadFont env = .ok f →
       env.createOutFile = .ok () →
       env.encodePNG (mainRender fl f).canvas = .ok outBytes →
       env.flushOut = .ok () →
       (runMain fl env).exitCode = 0 ∧
       (runMain fl env).fs.outFileExists = true ∧
       (runMain fl env).fs.outFileBytes = outBytes ∧
       (runMain fl env).finalImage = some (mainRender fl f).canvas) := by
  refine ⟨?_, ?_, ?_⟩
  · intro ctx f slotW imgH dpi size verb st i cp h
    unfold renderStep
    rw [h]
  · intro ctx f slotW imgH dpi size verb st i cp adv e hadv hrast
    unfold renderStep
    rw [hadv]
    refine ⟨?_, ?_⟩
    · simp only [drawString]
      rw [hrast]
    · simp only [drawString]
      rw [hrast]
      simp
  · intro fl env f outBytes hload hco hen hfl2
    have hbytes : ∃ bs, env.readFontFile = .ok bs ∧ env.parseFont bs = .ok f := by
      unfold loadFont at hload
      rcases hb : env.readFontFile with e | bs
      · simp only [hb] at hload
        exact absurd hload (by simp)
      · simp only [hb] at hload
        rcases hp : env.parseFont bs with e | f2
        · simp only [hp] at hload
          exact absurd hload (by simp)
        · simp only [hp] at hload
          cases hload
          exact ⟨bs, rfl, hp⟩
    obtain ⟨bs, hb, hp⟩ := hbytes
    rw [runMain_eq_of_font_ok fl env bs f hb hp,
      saveImage_eq_of_ok env _ outBytes hco hen hfl2, finishSave_none]
    exact ⟨rfl, rfl, rfl, rfl⟩

/-- Render state with an empty 1×1 canvas for the C4 witness. -/
def stTriv : RenderState := { canvas := newRGBA 1 1, logs := [], draws := [] }

/-- Context over the trivial font for the C4 witness. -/
def ctxTriv : FTContext := getFreeTypeContext fontTriv 72 125 (newRGBA 1 1) imageBlack "none"

/-- C4 witness: with a font that has no glyph for 'A', the render step only
logs a warning (state otherwise unchanged), and a run over the all-ok
environment exits 0. -/
theorem renderText_recoverable_failures_at :
    renderStep ctxTriv fontTriv 1 1 72 125 false stTriv (0, 65)
      = { stTriv with logs := stTriv.logs ++ [Msg.warnAdvance 65] } ∧
    (runMain flagsMini envOk).exitCode = 0 :=
  ⟨renderText_recoverable_failures.1 ctxTriv fontTriv 1 1 72 125 false stTriv 0 65 rfl,
    (renderText_recoverable_failures.2.2 flagsMini envOk fontTriv [137, 80, 78, 71]
      rfl rfl rfl rfl).1⟩

/-! ### C5 -/

/-- Value after a bounds-checked store at natural coordinates. -/
theorem set_pix_nat (c : Canvas) (x y : Nat) (col : RGBA) (a b : Nat) :
    (c.set (x : Int) (y : Int) col).pix a b
      = if x < c.width ∧ y < c.height ∧ a = x ∧ b = y then col else c.pix a b := by
  have hcast : ((0 : Int) ≤ (x : Int) ∧ (x : Int) < (c.width : Int) ∧
      (0 : Int) ≤ (y : Int) ∧ (y : Int) < (c.height : Int))
        ↔ (x < c.width ∧ y < c.height) := by
    constructor
    · rintro ⟨_, h1, _, h2⟩
      exact ⟨Int.ofNat_lt.mp h1, Int.ofNat_lt.mp h2⟩
    · rintro ⟨h1, h2⟩
      exact ⟨Int.natCast_nonneg x, Int.ofNat_lt.mpr h1,
        Int.natCast_nonneg y, Int.ofNat_lt.mpr h2⟩
  unfold Canvas.set
  by_cases hbnd : x < c.width ∧ y < c.height
  · rw [if_pos (hcast.mpr hbnd)]
    show (if a = ((x : Int)).toNat ∧ b = ((y : Int)).toNat then col else c.pix a b) = _
    simp only [Int.toNat_natCast]
    by_cases hab : a = x ∧ b = y
    · rw [if_pos hab, if_pos ⟨hbnd.1, hbnd.2, hab.1, hab.2⟩]
    · rw [if_neg hab, if_neg (fun hcon => hab ⟨hcon.2.2.1, hcon.2.2.2⟩)]
  · rw [if_neg (fun hcon => hbnd (hcast.mp hcon)),
      if_neg (fun hcon => hbnd ⟨hcon.1, hcon.2.1⟩)]

/-- Value after painting the column `x0` along a list of rows: a pixel holds
the guideline color exactly when it is in that column, its row was painted
and it is in bounds; all other pixels are untouched. -/
theorem paintList_pix (x0 : Nat) (col : RGBA) :
    ∀ (ys : List Nat) (c : Canvas) (a b : Nat),
      (ys.foldl (fun c2 y => c2.set ((x0 : Nat) : Int) ((y : Nat) : Int) col) c).pix a b
        = if a = x0 ∧ b ∈ ys ∧ x0 < c.width ∧ b < c.height then col else c.pix a b := by
  intro ys
  induction ys with
  | nil =>
    intro c a b
    simp
  | cons y ys ih =>
    intro c a b
    rw [List.foldl_cons, ih, set_width, set_height, set_pix_nat]
    by_cases h1 : a = x0 ∧ b ∈ ys ∧ x0 < c.width ∧ b < c.height
    · rw [if_pos h1, if_pos ⟨h1.1, List.mem_cons_of_mem y h1.2.1, h1.2.2⟩]
    · rw [if_neg h1]
      by_cases h2 : x0 < c.width ∧ y < c.height ∧ a = x0 ∧ b = y
      · rw [if_pos h2, if_pos ⟨h2.2.2.1, by rw [h2.2.2.2]; exact List.mem_cons_self y ys,
          h2.1, by rw [h2.2.2.2]; exact h2.2.1⟩]
      · have hcon : ¬(a = x0 ∧ b ∈ y :: ys ∧ x0 < c.width ∧ b < c.height) := by
          rintro ⟨ha, hmem, hw, hh⟩
          rcases List.mem_cons.mp hmem with hby | hby
          · exact h2 ⟨hw, hby ▸ hh, ha, hby⟩
          · exact h1 ⟨ha, hby, hw, hh⟩
        rw [if_neg h2, if_neg hcon]

/-- Value after `paintColumn`: rows `0 .. imgH-1` of column `i * slotW`. -/
theorem paintColumn_pix (slotW imgH : Nat) (ruler : RGBA) (c : Canvas) (i : Nat)
    (a b : Nat) :
    (paintColumn slotW imgH ruler c i).pix a b
      = if a = i * slotW ∧ b < imgH ∧ i * slotW < c.width ∧ b < c.height then ruler
        else c.pix a b := by
  unfold paintColumn
  rw [paintList_pix (i * slotW) ruler (List.range imgH) c a b]
  simp only [List.mem_range]

/-- Value after painting all guideline columns for the indices in `is`. -/
theorem paintColumns_pix (slotW imgH : Nat) (ruler : RGBA) :
    ∀ (is : List Nat) (c : Canvas) (a b : Nat),
      (is.foldl (paintColumn slotW imgH ruler) c).pix a b
        = if (∃ i, i ∈ is ∧ a = i * slotW) ∧ b < imgH ∧ a < c.width ∧ b < c.height
          then ruler else c.pix a b := by
  intro is
  induction is with
  | nil =>
    intro c a b
    simp
  | cons i is ih =>
    intro c a b
    rw [List.foldl_cons, ih, paintColumn_width, paintColumn_height, paintColumn_pix]
    by_cases h1 : (∃ j, j ∈ is ∧ a = j * slotW) ∧ b < imgH ∧ a < c.width ∧ b < c.height
    · rw [if_pos h1, if_pos ⟨⟨h1.1.choose, List.mem_cons_of_mem i h1.1.choose_spec.1,
        h1.1.choose_spec.2⟩, h1.2⟩]
    · rw [if_neg h1]
      by_cases h2 : a = i * slotW ∧ b < imgH ∧ i * slotW < c.width ∧ b < c.height
      · rw [if_pos h2, if_pos ⟨⟨i, List.mem_cons_self i is, h2.1⟩, h2.2.1,
          by rw [h2.1]; exact h2.2.2.1, h2.2.2.2⟩]
      · have hcon : ¬((∃ j, j ∈ i :: is ∧ a = j * slotW) ∧ b < imgH ∧
            a < c.width ∧ b < c.height) := by
          rintro ⟨⟨j, hj, ha⟩, hb2, hw, hh⟩
          rcases List.mem_cons.mp hj with hj0 | hj0
          · exact h2 ⟨hj0 ▸ ha, hb2, by rw [← (hj0 ▸ ha : a = i * slotW)]; exact hw, hh⟩
          · exact h1 ⟨⟨j, hj0, ha⟩, hb2, hw, hh⟩
        rw [if_neg h2, if_neg hcon]

/-- An in-bounds pixel of a uniformly filled buffer holds the fill color. -/
theorem drawUniformSrc_pix (c : Canvas) (src : RGBA) (a b : Nat)
    (ha : a < c.width) (hb : b < c.height) :
    (drawUniformSrc c src).pix a b = src := by
  unfold drawUniformSrc
  show (if a < c.width ∧ b < c.height then src else c.pix a b) = src
  rw [if_pos ⟨ha, hb⟩]

/-- A pixel that is not among the writes of a store is unchanged and was not
among the earlier writes either. -/
theorem set_untouched (c : Canvas) (x y : Int) (col : RGBA) (a b : Nat)
    (h : ¬ ((a, b) ∈ (c.set x y col).writes)) :
    (c.set x y col).pix a b = c.pix a b ∧ ¬ ((a, b) ∈ c.writes) := by
  unfold Canvas.set at h ⊢
  by_cases hg : 0 ≤ x ∧ x < (c.width : Int) ∧ 0 ≤ y ∧ y < (c.height : Int)
  · rw [if_pos hg] at h ⊢
    simp only [List.mem_cons, not_or] at h
    constructor
    · show (if a = x.toNat ∧ b = y.toNat then col else c.pix a b) = c.pix a b
      rw [if_neg]
      rintro ⟨ha, hb2⟩
      exact h.1 (by rw [ha, hb2])
    · exact h.2
  · rw [if_neg hg] at h ⊢
    exact ⟨rfl, h⟩

/-- `clipApply` version of `set_untouched`. -/
theorem clipApply_untouched (w h : Nat) (src : RGBA) (c : Canvas) (p : Int × Int)
    (a b : Nat) (hm : ¬ ((a, b) ∈ (clipApply w h src c p).writes)) :
    (clipApply w h src c p).pix a b = c.pix a b ∧ ¬ ((a, b) ∈ c.writes) := by
  unfold clipApply at hm ⊢
  by_cases hg : 0 ≤ p.1 ∧ p.1 < (w : Int) ∧ 0 ≤ p.2 ∧ p.2 < (h : Int)
  · rw [if_pos hg] at hm ⊢
    exact set_untouched c p.1 p.2 src a b hm
  · rw [if_neg hg] at hm ⊢
    exact ⟨rfl, hm⟩

/-- A pixel not written by a glyph-coverage fold is unchanged. -/
theorem clipFold_untouched (w h : Nat) (src : RGBA) :
    ∀ (pts : List (Int × Int)) (c : Canvas) (a b : Nat),
      ¬ ((a, b) ∈ (pts.foldl (clipApply w h src) c).writes) →
      (pts.foldl (clipApply w h src) c).pix a b = c.pix a b ∧
        ¬ ((a, b) ∈ c.writes) := by
  intro pts
  induction pts with
  | nil => exact fun c a b hm => ⟨rfl, hm⟩
  | cons p pts ih =>
    intro c a b hm
    rw [List.foldl_cons] at hm ⊢
    obtain ⟨h1, h2⟩ := ih (clipApply w h src c p) a b hm
    obtain ⟨h3, h4⟩ := clipApply_untouched w h src c p a b h2
    exact ⟨h1.trans h3, h4⟩

/-- A pixel not written by a `DrawString` call is unchanged. -/
theorem drawString_untouched (ctx : FTContext) (cp : Nat) (x y : Int) (c : Canvas)
    (a b : Nat) (hm : ¬ ((a, b) ∈ (drawString ctx cp x y c).1.writes)) :
    (drawString ctx cp x y c).1.pix a b = c.pix a b ∧ ¬ ((a, b) ∈ c.writes) := by
  unfold drawString at hm ⊢
  rcases hr : ctx.ctxFont.rasterize ctx.hinting ctx.ctxDPI ctx.ctxFontSize cp x y
    with e | pts
  · simp only [hr] at hm ⊢
    exact ⟨by trivial, hm⟩
  · simp only [hr] at hm ⊢
    exact clipFold_untouched ctx.clipW ctx.clipH ctx.src pts c a b hm

/-- A pixel not written during one render step is unchanged. -/
theorem renderStep_untouched (ctx : FTContext) (f : Font) (slotW imgH : Nat)
    (dpi size : Rat) (verb : Bool) (st : RenderState) (ir : Nat × Nat) (a b : Nat)
    (hm : ¬ ((a, b) ∈ (renderStep ctx f slotW imgH dpi size verb st ir).canvas.writes)) :
    (renderStep ctx f slotW imgH dpi size verb st ir).canvas.pix a b
      = st.canvas.pix a b ∧ ¬ ((a, b) ∈ st.canvas.writes) := by
  unfold renderStep at hm ⊢
  rcases hadv : f.glyphAdvance dpi size ir.2 with _ | adv
  · simp only [hadv] at hm ⊢
    exact ⟨by trivial, hm⟩
  · simp only [hadv] at hm ⊢
    exact drawString_untouched ctx ir.2 _ _ st.canvas a b hm

/-- A pixel not written during the whole render loop is unchanged. -/
theorem renderFold_untouched (ctx : FTContext) (f : Font) (slotW imgH : Nat)
    (dpi size : Rat) (verb : Bool) :
    ∀ (l : List (Nat × Nat)) (st : RenderState) (a b : Nat),
      ¬ ((a, b) ∈ (l.foldl (renderStep ctx f slotW imgH dpi size verb) st).canvas.writes) →
      (l.foldl (renderStep ctx f slotW imgH dpi size verb) st).canvas.pix a b
        = st.canvas.pix a b ∧ ¬ ((a, b) ∈ st.canvas.writes) := by
  intro l
  induction l with
  | nil => exact fun st a b hm => ⟨rfl, hm⟩
  | cons ir l ih =>
    intro st a b hm
    rw [List.foldl_cons] at hm ⊢
    obtain ⟨h1, h2⟩ := ih (renderStep ctx f slotW imgH dpi size verb st ir) a b hm
    obtain ⟨h3, h4⟩ := renderStep_untouched ctx f slotW imgH dpi size verb st ir a b h2
    exact ⟨h1.trans h3, h4⟩

/-- C5: (1) with guidelines on, after `createImage` and before any glyph is
drawn, every in-bounds pixel of column `i * slotWidth`, for each slot index
`i < textLen`, holds the guideline color; (2) with guidelines off, after
`createImage` every in-bounds pixel is the background color; (3) hence in
the final image with guidelines off, every in-bounds pixel not written by
glyph rasterization (`renderText`'s writes) still holds the background
color. -/
theorem guideline_and_background_invariant :
    (∀ (textLen slotW imgH : Nat) (bg ruler : RGBA) (i y : Nat),
       i < textLen → y < imgH →
       i * slotW < (createImage textLen slotW imgH bg ruler true).width →
       (createImage textLen slotW imgH bg ruler true).pix (i * slotW) y = ruler) ∧
    (∀ (textLen slotW imgH : Nat) (bg ruler : RGBA) (x y : Nat),
       x < (createImage textLen slotW imgH bg ruler false).width →
       y < (createImage textLen slotW imgH bg ruler false).height →
       (createImage textLen slotW imgH bg ruler false).pix x y = bg) ∧
    (∀ (ctx : FTContext) (f : Font) (text : List Nat) (slotW imgH : Nat)
       (dpi size : Rat) (verb : Bool) (textLen sw ih2 : Nat) (bg ruler : RGBA)
       (x y : Nat),
       x < (createImage textLen sw ih2 bg ruler false).width →
       y < (createImage textLen sw ih2 bg ruler false).height →
       ¬ ((x, y) ∈ (renderText ctx f text slotW imgH dpi size verb
             (createImage textLen sw ih2 bg ruler false)).canvas.writes) →
       (renderText ctx f text slotW imgH dpi size verb
           (createImage textLen sw ih2 bg ruler false)).canvas.pix x y = bg) := by
  refine ⟨?_, ?_, ?_⟩
  · intro textLen slotW imgH bg ruler i y hi hy hw
    rw [(createImage_dims textLen slotW imgH bg ruler true).1] at hw
    show ((List.range textLen).foldl (paintColumn slotW imgH ruler)
        (drawUniformSrc
          (newRGBA (if textLen * slotW = 0 then slotW else textLen * slotW) imgH)
          bg)).pix (i * slotW) y = ruler
    rw [paintColumns_pix, if_pos ⟨⟨i, List.mem_range.mpr hi, rfl⟩, hy, hw, hy⟩]
  · intro textLen slotW imgH bg ruler x y hx hy
    exact drawUniformSrc_pix
      (newRGBA (if textLen * slotW = 0 then slotW else textLen * slotW) imgH)
      bg x y hx hy
  · intro ctx f text slotW imgH dpi size verb textLen sw ih2 bg ruler x y hx hy hnw
    have h2 := renderFold_untouched ctx f slotW imgH dpi size verb (runeIndices text)
      { canvas := createImage textLen sw ih2 bg ruler false, logs := [], draws := [] }
      x y hnw
    exact h2.1.trans (drawUniformSrc_pix
      (newRGBA (if textLen * sw = 0 then sw else textLen * sw) ih2) bg x y hx hy)

/-- The light-gray guideline color of the default palette. -/
def rulerLight : RGBA := ⟨0xdd, 0xdd, 0xdd, 0xff⟩

/-- C5 witness: in a 2-slot, 3-px-slot, 4-px-high canvas with guidelines on,
the pixel (3, 1) on the second slot boundary holds the guideline color; with
guidelines off, pixel (0, 0) holds the background color. -/
theorem guideline_invariant_at :
    (createImage 2 3 4 imageWhite rulerLight true).pix (1 * 3) 1 = rulerLight ∧
    (createImage 2 3 4 imageWhite rulerLight false).pix 0 0 = imageWhite :=
  ⟨guideline_and_background_invariant.1 2 3 4 imageWhite rulerLight 1 1
      (by decide) (by decide) (by decide),
    guideline_and_background_invariant.2.1 2 3 4 imageWhite rulerLight 0 0
      (by decide) (by decide)⟩

/-! ### C10 -/

/-- Every recorded pixel write of the buffer lies inside its bounds. -/
def WritesInBounds (c : Canvas) : Prop :=
  ∀ w ∈ c.writes, w.1 < c.width ∧ w.2 < c.height

/-- A bounds-checked store preserves the bounds invariant of the write
trace: the store is only recorded when it is inside the rectangle. -/
theorem set_writesInBounds (c : Canvas) (x y : Int) (col : RGBA)
    (h : WritesInBounds c) : WritesInBounds (c.set x y col) := by
  intro w hw
  rw [set_width, set_height]
  unfold Canvas.set at hw
  by_cases hg : 0 ≤ x ∧ x < (c.width : Int) ∧ 0 ≤ y ∧ y < (c.height : Int)
  · rw [if_pos hg] at hw
    simp only [List.mem_cons] at hw
    rcases hw with rfl | hw
    · obtain ⟨hg1, hg2, hg3, hg4⟩ := hg
      exact ⟨by show x.toNat < c.width; omega, by show y.toNat < c.height; omega⟩
    · exact h w hw
  · rw [if_neg hg] at hw
    exact h w hw

/-- A fold preserves the write-bounds invariant when each step does. -/
theorem foldl_writesInBounds {α : Type} (f : Canvas → α → Canvas)
    (hstep : ∀ c a, WritesInBounds c → WritesInBounds (f c a)) :
    ∀ (l : List α) (c : Canvas), WritesInBounds c → WritesInBounds (l.foldl f c) := by
  intro l
  induction l with
  | nil => exact fun c h => h
  | cons a l ih =>
    intro c h
    rw [List.foldl_cons]
    exact ih (f c a) (hstep c a h)

/-- Clipped glyph-coverage stores preserve the write-bounds invariant. -/
theorem clipApply_writesInBounds (w h : Nat) (src : RGBA) (c : Canvas)
    (p : Int × Int) (hc : WritesInBounds c) :
    WritesInBounds (clipApply w h src c p) := by
  unfold clipApply
  by_cases hg : 0 ≤ p.1 ∧ p.1 < (w : Int) ∧ 0 ≤ p.2 ∧ p.2 < (h : Int)
  · rw [if_pos hg]
    exact set_writesInBounds c p.1 p.2 src hc
  · rw [if_neg hg]
    exact hc

/-- Guideline painting preserves the write-bounds invariant. -/
theorem paintColumn_writesInBounds (slotW imgH : Nat) (ruler : RGBA) (c : Canvas)
    (i : Nat) (hc : WritesInBounds c) :
    WritesInBounds (paintColumn slotW imgH ruler c i) := by
  unfold paintColumn
  exact foldl_writesInBounds _ (fun c2 y h2 => set_writesInBounds c2 _ _ ruler h2)
    (List.range imgH) c hc

/-- The canvas produced by `createImage` satisfies the bounds invariant:
its only writes are the guideline stores, which are bounds-checked. -/
theorem createImage_writesInBounds (textLen slotW imgH : Nat) (bg ruler : RGBA)
    (sg : Bool) : WritesInBounds (createImage textLen slotW imgH bg ruler sg) := by
  cases sg with
  | false => exact fun w hw => absurd hw (List.not_mem_nil w)
  | true =>
    show WritesInBounds ((List.range textLen).foldl (paintColumn slotW imgH ruler)
      (drawUniformSrc
        (newRGBA (if textLen * slotW = 0 then slotW else textLen * slotW) imgH) bg))
    exact foldl_writesInBounds _ (paintColumn_writesInBounds slotW imgH ruler)
      (List.range textLen) _ (fun w hw => absurd hw (List.not_mem_nil w))

/-- A `DrawString` call preserves the write-bounds invariant. -/
theorem drawString_writesInBounds (ctx : FTContext) (cp : Nat) (x y : Int)
    (c : Canvas) (hc : WritesInBounds c) :
    WritesInBounds (drawString ctx cp x y c).1 := by
  unfold drawString
  rcases hr : ctx.ctxFont.rasterize ctx.hinting ctx.ctxDPI ctx.ctxFontSize cp x y
    with e | pts
  · exact hc
  · exact foldl_writesInBounds _ (clipApply_writesInBounds ctx.clipW ctx.clipH ctx.src)
      pts c hc

/-- One render step preserves the write-bounds invariant. -/
theorem renderStep_writesInBounds (ctx : FTContext) (f : Font) (slotW imgH : Nat)
    (dpi size : Rat) (verb : Bool) (st : RenderState) (ir : Nat × Nat)
    (hc : WritesInBounds st.canvas) :
    WritesInBounds (renderStep ctx f slotW imgH dpi size verb st ir).canvas := by
  unfold renderStep
  rcases hadv : f.glyphAdvance dpi size ir.2 with _ | adv
  · exact hc
  · exact drawString_writesInBounds ctx ir.2 _ _ st.canvas hc

/-- The whole render loop preserves the write-bounds invariant. -/
theorem renderFold_writesInBounds (ctx : FTContext) (f : Font) (slotW imgH : Nat)
    (dpi size : Rat) (verb : Bool) :
    ∀ (l : List (Nat × Nat)) (st : RenderState),
      WritesInBounds st.canvas →
      WritesInBounds ((l.foldl (renderStep ctx f slotW imgH dpi size verb) st).canvas) := by
  intro l
  induction l with
  | nil => exact fun st h => h
  | cons ir l ih =>
    intro st h
    rw [List.foldl_cons]
    exact ih (renderStep ctx f slotW imgH dpi size verb st ir)
      (renderStep_writesInBounds ctx f slotW imgH dpi size verb st ir h)

/-- C10: every pixel write performed by the pipeline as `main` runs it —
guideline strokes in `createImage` and glyph rasterization through the
clip rectangle (set to the canvas bounds) and the bounds-checked store —
targets a pixel inside the canvas rectangle; out-of-rectangle coverage is
silently dropped, never an error or an out-of-bounds mutation. -/
theorem mainRender_writes_in_bounds (fl : Flags) (f : Font) :
    ∀ w ∈ (mainRender fl f).canvas.writes,
      w.1 < (mainRender fl f).canvas.width ∧
        w.2 < (mainRender fl f).canvas.height := by
  have hbase : WritesInBounds (mainCanvas fl) :=
    createImage_writesInBounds (byteLen fl.text) fl.slotWidth fl.imageHeight
      (getColors fl.wonb).2.1 (getColors fl.wonb).2.2 fl.showGuidelines
  exact renderFold_writesInBounds
    (getFreeTypeContext f fl.dpi fl.fontSize (mainCanvas fl) (getColors fl.wonb).1
      fl.hinting)
    f fl.slotWidth fl.imageHeight fl.dpi fl.fontSize fl.verbose
    (runeIndices fl.text)
    { canvas := mainCanvas fl, logs := [], draws := [] } hbase

/-- External font that paints the single pixel (1, 1) for every glyph. -/
def fontDot : Font :=
  { glyphAdvance := fun _ _ _ => some 64
    rasterize := fun _ _ _ _ _ _ => .ok [(1, 1)] }

/-- Flags rendering "A" into a 4×4 canvas. -/
def flagsDot : Flags :=
  { flagsMini with text := [65], slotWidth := 4, imageHeight := 4 }

/-- C10 witness: the one write performed when rendering "A" with `fontDot`
is inside the 4×4 canvas. -/
theorem mainRender_writes_in_bounds_at :
    ((1, 1) : Nat × Nat).1 < (mainRender flagsDot fontDot).canvas.width ∧
    ((1, 1) : Nat × Nat).2 < (mainRender flagsDot fontDot).canvas.height :=
  mainRender_writes_in_bounds flagsDot fontDot (1, 1) (by decide)
